import Mathlib

/-!
Shallow embedding of the `website-backend` submission-protection pipeline.

The Go sources embedded here:
- `main.go` : `limitMiddleware`, `ctaHandler`, `isFakeUA`, `clientIP`,
  `allowRate` (per-IP sliding-window rate limiter over the global
  `rlimap : map[string]*rateInfo` guarded by `rlMu`);
- `turnstile` package : `VerifyTurnstile`;
- `mail` package : the value-sanitization sequence inside
  `formatPayloadAsTable` (regexes `reHTML`, `reURL`, `reCtrl`, and
  `strings.TrimSpace`), together with the `json.MarshalIndent` rendering
  of payload values.

Modelling conventions:
- `time.Time` / `time.Duration` are modelled as `Int` nanoseconds
  (Go durations are signed 64-bit nanosecond counts; no claim exercises
  64-bit overflow, so plain `Int` is used).
- External I/O (the turnstile HTTP POST, reading/decoding its response
  body, SMTP delivery, the JSON decoding of the request body) is passed
  in as explicit outcome values, making every handler a pure function of
  the request, the rate-limit table, the clock and those outcomes.
- Mutation of the global `rlimap` is explicit state passing: functions
  take the table and return the updated table.
-/

/-! ## Go string helpers (models of the `strings`/`unicode` stdlib calls
used by the source) -/

/-- Model of `unicode.IsSpace` (the White_Space property), used by
`strings.TrimSpace`. -/
def goIsSpace (c : Char) : Bool :=
  c = ' ' || c = '\t' || c = '\n' || c = '\x0b' || c = '\x0c' || c = '\r' ||
  c.toNat = 0x85 || c.toNat = 0xA0 || c.toNat = 0x1680 ||
  (0x2000 ≤ c.toNat && c.toNat ≤ 0x200A) ||
  c.toNat = 0x2028 || c.toNat = 0x2029 ||
  c.toNat = 0x202F || c.toNat = 0x205F || c.toNat = 0x3000

/-- Model of `strings.TrimSpace` on the character list. -/
def trimSpaceList (l : List Char) : List Char :=
  ((l.dropWhile goIsSpace).reverse.dropWhile goIsSpace).reverse

/-- Model of `strings.TrimSpace`. -/
def trimSpaceStr (s : String) : String :=
  ⟨trimSpaceList s.data⟩

/-- Does `needle` occur as a contiguous run inside `hay`?  Model of
`strings.Contains` (restricted to the byte-for-byte view; the needles
used by the source are plain ASCII). -/
def isInfixList (needle : List Char) : List Char → Bool
  | [] => needle.isEmpty
  | c :: cs => needle.isPrefixOf (c :: cs) || isInfixList needle cs

/-- Model of `strings.Contains s sub`. -/
def containsSubstring (s sub : String) : Bool :=
  isInfixList sub.data s.data

/-- ASCII model of `strings.ToLower`.  The denylist needles searched by
`isFakeUA` ("curl/", "python-requests", "bot") are pure ASCII, for which
Go's Unicode lowering and the ASCII lowering agree. -/
def goToLower (s : String) : String :=
  ⟨s.data.map Char.toLower⟩

/-! ## JSON values and `json.MarshalIndent`

`ctaHandler` decodes the request payload into `map[string]interface{}`.
The JSON value universe reachable from `encoding/json` decoding is
modelled by `JValue`.  Go maps are unordered and `encoding/json`
marshals map keys in ascending (byte-wise) order; `JValue.obj` therefore
holds its fields already in that ascending key order, the canonical
representation of the Go map. -/

inductive JValue where
  /-- JSON `null` (`nil` interface value). -/
  | null
  /-- JSON booleans (`bool`). -/
  | bool (b : Bool)
  /-- JSON numbers decode to `float64`; `encoding/json` re-renders them
  with its floating-point formatter.  The rendered numeral text is kept
  abstract as the payload of this constructor (no claim exercises
  floating-point formatting). -/
  | num (text : String)
  /-- JSON strings (`string`). -/
  | str (s : String)
  /-- JSON arrays (`[]interface{}`). -/
  | arr (elems : List JValue)
  /-- JSON objects (`map[string]interface{}`), fields in ascending key
  order (see above). -/
  | obj (fields : List (String × JValue))

/-- Lower-case hex digit of `n % 16`, as written by the
`encoding/json` escaper. -/
def hexDigit (n : Nat) : Char :=
  if n < 10 then Char.ofNat (48 + n) else Char.ofNat (87 + n)

/-- Per-character escaping of `encoding/json`'s string encoder with its
default `escapeHTML = true` (the mode `json.Marshal` / `MarshalIndent`
use): `"` and `\` are backslash-escaped; `\n`, `\r`, `\t` use the short
escapes; the remaining control bytes below 0x20 become `\u00xx`; the
HTML-sensitive `<`, `>`, `&` become `<`, `>`, `&`;
U+2028/U+2029 are escaped; everything else passes through literally. -/
def escapeJSONChar (c : Char) : List Char :=
  if c = '"' then ['\\', '"']
  else if c = '\\' then ['\\', '\\']
  else if c = '\n' then ['\\', 'n']
  else if c = '\r' then ['\\', 'r']
  else if c = '\t' then ['\\', 't']
  else if c.toNat < 0x20 then
    ['\\', 'u', '0', '0', hexDigit (c.toNat / 16), hexDigit (c.toNat % 16)]
  else if c = '<' then ['\\', 'u', '0', '0', '3', 'c']
  else if c = '>' then ['\\', 'u', '0', '0', '3', 'e']
  else if c = '&' then ['\\', 'u', '0', '0', '2', '6']
  else if c.toNat = 0x2028 then ['\\', 'u', '2', '0', '2', '8']
  else if c.toNat = 0x2029 then ['\\', 'u', '2', '0', '2', '9']
  else [c]

/-- Model of `encoding/json`'s rendering of a Go `string`: the escaped
text wrapped in double quotes.  (Invalid UTF-8 replacement does not
arise: Lean strings are valid Unicode.) -/
def encodeJSONString (s : String) : String :=
  ⟨'"' :: (s.data.foldr (fun c acc => escapeJSONChar c ++ acc) ['"'])⟩

/-- Indentation produced by `json.MarshalIndent(v, "", "  ")` at nesting
depth `d`: `d` copies of two spaces. -/
def indentOf (d : Nat) : String :=
  ⟨List.replicate (2 * d) ' '⟩

mutual

/-- Model of `json.MarshalIndent(v, "", "  ")` on the `JValue`
universe.  `d` is the current nesting depth (0 at the top level). -/
def marshalIndentJ (d : Nat) : JValue → String
  | .null => "null"
  | .bool b => if b then "true" else "false"
  | .num t => t
  | .str s => encodeJSONString s
  | .arr [] => "[]"
  | .arr (x :: xs) =>
      "[\n" ++ marshalArrItems (d + 1) x xs ++ "\n" ++ indentOf d ++ "]"
  | .obj [] => "\x7b\x7d"
  | .obj (f :: fs) =>
      "\x7b\n" ++ marshalObjItems (d + 1) f fs ++ "\n" ++ indentOf d ++ "\x7d"
termination_by v => sizeOf v
decreasing_by all_goals (simp_wf; try omega)

/-- Comma-and-newline separated, indented array elements. -/
def marshalArrItems (d : Nat) : JValue → List JValue → String
  | x, [] => indentOf d ++ marshalIndentJ d x
  | x, y :: ys =>
      indentOf d ++ marshalIndentJ d x ++ ",\n" ++ marshalArrItems d y ys
termination_by x xs => sizeOf x + sizeOf xs
decreasing_by all_goals (simp_wf; try omega)

/-- Comma-and-newline separated, indented object fields
(`"key": value`). -/
def marshalObjItems (d : Nat) : (String × JValue) → List (String × JValue) → String
  | ⟨k, v⟩, [] => indentOf d ++ encodeJSONString k ++ ": " ++ marshalIndentJ d v
  | ⟨k, v⟩, g :: gs =>
      indentOf d ++ encodeJSONString k ++ ": " ++ marshalIndentJ d v ++
        ",\n" ++ marshalObjItems d g gs
termination_by f fs => sizeOf f + sizeOf fs
decreasing_by all_goals (simp_wf; try omega)

end

/-! ## The three sanitization passes of `formatPayloadAsTable`

`reHTML = regexp.MustCompile("<[^>]*>")`,
`reURL  = regexp.MustCompile("https?://\\S+")`,
`reCtrl = regexp.MustCompile("[\\x00-\\x09\\x0B\\x0C\\x0E-\\x1F]")`,
each applied with `ReplaceAllString` (leftmost, non-overlapping matches,
scanning left to right).

The two deleting passes are written with an explicit fuel argument that
starts at the input length; every recursive step consumes at least one
input character, so the fuel never runs out before the input does (the
fuel-zero arm can only be reached with empty remaining input, where
returning the input unchanged is exact). -/

/-- After an opening `<`, find the first `>` and return the characters
after it; `none` when no `>` follows (then `<[^>]*>` has no match
starting at that `<`). -/
def afterFirstGt : List Char → Option (List Char)
  | [] => none
  | c :: cs => if c = '>' then some cs else afterFirstGt cs

/-- One left-to-right scan deleting every `<[^>]*>` match.  A match
starts at a `<` and extends to the first following `>` (the class
`[^>]*` cannot cross a `>`); a `<` with no later `>` cannot start a
match and is kept. -/
def stripTagsFuel : Nat → List Char → List Char
  | 0, s => s
  | _ + 1, [] => []
  | fuel + 1, c :: cs =>
    if c = '<' then
      match afterFirstGt cs with
      | some rest => stripTagsFuel fuel rest
      | none => c :: stripTagsFuel fuel cs
    else c :: stripTagsFuel fuel cs

/-- `reHTML.ReplaceAllString(s, "")`. -/
def replaceAllHTML (s : String) : String :=
  ⟨stripTagsFuel s.data.length s.data⟩

/-- RE2's `\s` class is exactly `[\t\n\f\r ]`; `\S` is its complement.
(Note vertical tab 0x0B is NOT in RE2's `\s`.) -/
def re2IsSpace (c : Char) : Bool :=
  c = '\t' || c = '\n' || c = '\x0c' || c = '\r' || c = ' '

/-- Attempt to match `https?://\S+` at the start of `s`: the literal
scheme (the two alternatives are mutually exclusive at any position)
followed by a maximal non-empty run of non-`\s` characters.  Returns
the characters after the match. -/
def matchURLAt (s : List Char) : Option (List Char) :=
  let tryPfx : List Char → Option (List Char) := fun p =>
    if p.isPrefixOf s then
      match s.drop p.length with
      | [] => none
      | d :: rest =>
        if re2IsSpace d then none
        else some ((d :: rest).dropWhile (fun c => !re2IsSpace c))
    else none
  (tryPfx "https://".data).orElse (fun _ => tryPfx "http://".data)

/-- One left-to-right scan deleting every `https?://\S+` match. -/
def stripURLsFuel : Nat → List Char → List Char
  | 0, s => s
  | _ + 1, [] => []
  | fuel + 1, c :: cs =>
    match matchURLAt (c :: cs) with
    | some rest => stripURLsFuel fuel rest
    | none => c :: stripURLsFuel fuel cs

/-- `reURL.ReplaceAllString(s, "")`. -/
def replaceAllURL (s : String) : String :=
  ⟨stripURLsFuel s.data.length s.data⟩

/-- The class `[\x00-\x09\x0B\x0C\x0E-\x1F]` of `reCtrl`. -/
def isCtrlByte (c : Char) : Bool :=
  c.toNat ≤ 0x09 || c.toNat = 0x0B || c.toNat = 0x0C ||
  (0x0E ≤ c.toNat && c.toNat ≤ 0x1F)

/-- `reCtrl.ReplaceAllString(s, " ")`: each matched character is a
single character of the class, replaced by a single space. -/
def replaceAllCtrl (s : String) : String :=
  ⟨s.data.map (fun c => if isCtrlByte c then ' ' else c)⟩

/-- The per-value sanitization sequence inside `formatPayloadAsTable`
(`main` branch of the repo):

    j, err := json.MarshalIndent(v, "", "  ")
    ... vstr = string(j)            // err is impossible for decoded JSON
    vstr = reHTML.ReplaceAllString(vstr, "")
    vstr = reURL.ReplaceAllString(vstr, "")
    vstr = reCtrl.ReplaceAllString(vstr, " ")
    vstr = strings.TrimSpace(vstr)

The `fmt.Sprintf("%v", v)` fallback is taken only when `MarshalIndent`
errors, which cannot happen for values produced by `encoding/json`
decoding (no cycles, no unsupported types), so it is not modelled. -/
def sanitizeFieldValue (v : JValue) : String :=
  trimSpaceStr (replaceAllCtrl (replaceAllURL (replaceAllHTML
    (marshalIndentJ 0 v))))

/-- The sanitizer as claim C5's text reads it: only NON-string values
are rendered to canonical text, a string field passes to the three
replacement passes as-is, then the same passes in the same order.
Stated for comparison with `sanitizeFieldValue`, which is what the code
does (it renders strings through `MarshalIndent` too). -/
def sanitizeFieldValueSpec (v : JValue) : String :=
  trimSpaceStr (replaceAllCtrl (replaceAllURL (replaceAllHTML
    (match v with
      | .str s => s
      | other => marshalIndentJ 0 other))))

/-! ## Configuration (`config` package, fields used by the pipeline)

Only the configuration consumed by the submission pipeline is embedded;
static-site locations, SMTP and logging configuration are external
collaborators for every claim. -/

/-- `config.CFTurnConfig`. -/
structure CFTurnConfig where
  endpoint : String
  secret : String
deriving DecidableEq

/-- `config.OptionsConfig`. -/
structure OptionsConfig where
  enableRateLimiting : Bool
  maxBodySize : Int
  blockBotUserAgents : Bool
  ctaEndpoint : String
deriving DecidableEq

/-- The slice of `config.Config` the pipeline reads. -/
structure Config where
  cfturn : CFTurnConfig
  options : OptionsConfig
deriving DecidableEq

/-! ## Rate limiter (`allowRate` in `main.go`)

`rlimap : map[string]*rateInfo` is modelled as an association list from
client identity to the `timestamps` slice.  Go map lookup/insert/update
are `findEntry` / cons / `setEntry`; the in-place mutation through the
`*rateInfo` pointer is the `setEntry` update. -/

/-- The rate limiter database `rlimap`. -/
abbrev RateMap := List (String × List Int)

/-- Map lookup `ri, ok := rlimap[ip]`. -/
def findEntry : RateMap → String → Option (List Int)
  | [], _ => none
  | (k, v) :: rest, ip => if k = ip then some v else findEntry rest ip

/-- In-place update of the entry already present for `ip`
(`ri.timestamps = nt` through the map's pointer). -/
def setEntry : RateMap → String → List Int → RateMap
  | [], _, _ => []
  | (k, w) :: rest, ip, v =>
    if k = ip then (ip, v) :: rest else (k, w) :: setEntry rest ip v

/-- `const window = time.Minute`, in nanoseconds. -/
def window : Int := 60000000000

/-- `const limit = 5`. -/
def limit : Nat := 5

/-- `allowRate(ip)` of `main.go`, with the global configuration, the
global `rlimap` and `time.Now()` passed explicitly:

    if !cfg.Options.EnableRateLimiting { return true }
    ...
    ri, ok := rlimap[ip]
    if !ok { rlimap[ip] = &rateInfo{[now]}; return true }
    nt := keep ts in ri.timestamps with now.Sub(ts) <= window
    nt = append(nt, now)
    ri.timestamps = nt
    return !(len(nt) > limit)

The mutex only serializes concurrent calls; a single call under the lock
is this pure function of `(rlimap, ip, now)`. -/
def allowRate (opts : OptionsConfig) (m : RateMap) (ip : String) (now : Int) :
    Bool × RateMap :=
  if !opts.enableRateLimiting then (true, m)
  else
    match findEntry m ip with
    | none => (true, (ip, [now]) :: m)
    | some t =>
      let nt := t.filter (fun ts => decide (now - ts ≤ window)) ++ [now]
      if nt.length > limit then (false, setEntry m ip nt)
      else (true, setEntry m ip nt)

/-- Repeated `allowRate` calls for one identity at the given sequence of
clock readings; returns the admission results in order and the final
table. -/
def allowRateCalls (opts : OptionsConfig) (m : RateMap) (ip : String) :
    List Int → List Bool × RateMap
  | [] => ([], m)
  | t :: ts =>
    ((allowRate opts m ip t).1 ::
        (allowRateCalls opts (allowRate opts m ip t).2 ip ts).1,
      (allowRateCalls opts (allowRate opts m ip t).2 ip ts).2)

/-- Repeated `allowRate` calls for arbitrary identities: each list entry
is one admission check `(identity, clock reading)`. -/
def runCalls (opts : OptionsConfig) : RateMap → List (String × Int) → RateMap
  | m, [] => m
  | m, c :: cs => runCalls opts (allowRate opts m c.1 c.2).2 cs

/-! ## Turnstile verifier (`turnstile.VerifyTurnstile`)

The external HTTP exchange is an explicit outcome value:
`none` stands for a transport-level error from `http.Post`; otherwise a
`TResponse` carries the final status, the result of `io.ReadAll` on the
body (`none` = read error) and the result of decoding the body as
`struct{ Success bool }` (`none` = malformed JSON).

The `json.Marshal(data)` of the request struct (three plain string
fields) cannot fail, so that error branch of the source is dead and not
modelled. -/

/-- The observable behaviour of the verification endpoint's HTTP
response, as consumed by `VerifyTurnstile`. -/
structure TResponse where
  /-- `resp.StatusCode`. -/
  statusCode : Int
  /-- `resp.Status` (e.g. "500 Internal Server Error"). -/
  status : String
  /-- Outcome of `io.ReadAll(resp.Body)`. -/
  readBody : Option String
  /-- Outcome of decoding the body into `struct{ Success bool }`. -/
  decodeSuccess : Option Bool
deriving DecidableEq

/-- The failure variants `VerifyTurnstile` can return as its `error`
result (the diagnostic strings of the source are carried as the
constructor arguments that appear in them). -/
inductive TurnstileError where
  /-- "turnstile not configured" (empty secret or endpoint). -/
  | notConfigured
  /-- The error returned by `http.Post` itself. -/
  | transportError
  /-- "turnstile verification failed with status: <status> ...", with
  the body text when `io.ReadAll` succeeded and "(cannot read body)"
  otherwise. -/
  | statusError (status : String) (body : Option String)
  /-- The error returned by `dec.Decode(&res)`. -/
  | decodeError
deriving DecidableEq

/-- `turnstile.VerifyTurnstile(cfg, token, ip)` with the HTTP exchange
passed in as `resp`:

    if cfg.Secret == "" || cfg.Endpoint == "" { return false, errors.New("turnstile not configured") }
    resp, err := http.Post(...)           // err => (false, err)
    if resp.StatusCode > 299 { read body; return false, errors.New("...status...") }
    decode struct{Success bool}           // err => (false, err)
    return res.Success, nil
-/
def VerifyTurnstile (cfg : CFTurnConfig) (token ip : String)
    (resp : Option TResponse) : Bool × Option TurnstileError :=
  if cfg.secret = "" ∨ cfg.endpoint = "" then (false, some .notConfigured)
  else
    match resp with
    | none => (false, some .transportError)
    | some r =>
      if r.statusCode > 299 then
        match r.readBody with
        | none => (false, some (.statusError r.status none))
        | some b => (false, some (.statusError r.status (some b)))
      else
        match r.decodeSuccess with
        | none => (false, some .decodeError)
        | some s => (s, none)

/-! ## Submission pipeline (`limitMiddleware` + `ctaHandler`) -/

/-- `isFakeUA(ua)`:

    if !cfg.Options.BlockBotUserAgents { return false }
    l := strings.ToLower(ua)
    return strings.Contains(l, "curl/") || strings.Contains(l, "python-requests") || strings.Contains(l, "bot")
-/
def isFakeUA (opts : OptionsConfig) (ua : String) : Bool :=
  if !opts.blockBotUserAgents then false
  else
    containsSubstring (goToLower ua) "curl/" ||
    containsSubstring (goToLower ua) "python-requests" ||
    containsSubstring (goToLower ua) "bot"

/-- Simplified model of `net.SplitHostPort`, restricted to the host
result that `clientIP` uses: split at the last colon, brackets around an
IPv6 host are stripped, inputs Go rejects (no colon, stray colons or
brackets in the host) return `none`.  (The finer `net` error taxonomy is
irrelevant: `clientIP` only distinguishes success from error.) -/
def splitHostPortHost (s : String) : Option String :=
  let l := s.data
  let portRev := l.reverse.takeWhile (fun c => c ≠ ':')
  if portRev.length = l.length then none
  else
    let host := (l.reverse.drop (portRev.length + 1)).reverse
    if host.contains ':' then
      match host with
      | '[' :: t => if t.getLast? = some ']' then some ⟨t.dropLast⟩ else none
      | _ => none
    else if host.contains '[' || host.contains ']' then none
    else some ⟨host⟩

/-- The inbound request, with the body-decoding outcome made explicit. -/
inductive DecodeResult where
  /-- `dec.Decode(&body)` succeeded: the decoded `token` and `payload`.
  (A `token` equal to `""` also covers a JSON body with no token
  field.) -/
  | ok (token : String) (payload : List (String × JValue))
  /-- `dec.Decode` returned `io.EOF` (empty body): tolerated by the
  handler, all fields keep their zero values (empty token). -/
  | eofEmpty
  /-- Any other decode error: malformed JSON, or the body exceeded the
  `http.MaxBytesReader` cap installed just before decoding (the cap
  surfaces as a decode error). -/
  | errOther

/-- An inbound HTTP request to the CTA endpoint, with external outcomes
attached. -/
structure Request where
  /-- `r.Method`. -/
  method : String
  /-- `r.Header.Get("User-Agent")`. -/
  userAgent : String
  /-- `r.ContentLength` (-1 when unknown). -/
  contentLength : Int
  /-- `r.Header.Get("X-Forwarded-For")`. -/
  xff : String
  /-- `r.RemoteAddr`. -/
  remoteAddr : String
  /-- Outcome of JSON-decoding the (size-capped) body. -/
  decodeResult : DecodeResult

/-- `clientIP(r)`:

    if xff := r.Header.Get("X-Forwarded-For"); xff != "" {
      return strings.TrimSpace(strings.Split(xff, ",")[0]) }
    host, _, err := net.SplitHostPort(r.RemoteAddr)
    if err != nil { return r.RemoteAddr }
    return host
-/
def clientIP (r : Request) : String :=
  if r.xff ≠ "" then
    trimSpaceStr ⟨r.xff.data.takeWhile (fun c => c ≠ ',')⟩
  else
    match splitHostPortHost r.remoteAddr with
    | none => r.remoteAddr
    | some host => host

/-- The checks of the request path, in the order the code can evaluate
them; used to record which checks a given request actually reached. -/
inductive Step where
  /-- `limitMiddleware`'s declared Content-Length check. -/
  | contentLengthCheck
  /-- `r.Method != http.MethodPost`. -/
  | methodCheck
  /-- empty / fake User-Agent check. -/
  | uaCheck
  /-- `allowRate(ip)` admission. -/
  | rateCheck
  /-- body read (under `http.MaxBytesReader`) and JSON decode. -/
  | decodeBody
  /-- `body.Token == ""` check. -/
  | tokenCheck
  /-- the `turnstile.VerifyTurnstile` call. -/
  | verifyCall
  /-- the `mail.SendMail` call. -/
  | mailCall
deriving DecidableEq

/-- What the server produced for a request: an HTTP response, or a
runtime panic escaping the handler (no response written). -/
inductive HttpOutcome where
  /-- Response status and error-body text (`http.Error` bodies are
  modelled without the trailing newline it appends; the 204 success
  response has an empty body). -/
  | response (status : Nat) (body : String)
  /-- A runtime panic escaped the handler. -/
  | panicked
deriving DecidableEq

/-- Result of serving one request: the outcome, the rate-limit table
afterwards, and the checks evaluated, in order. -/
structure ServeResult where
  outcome : HttpOutcome
  rlimap : RateMap
  steps : List Step
deriving DecidableEq

/-- One request to the CTA endpoint through
`limitMiddleware(mux)` + `ctaHandler`, as a pure function of the
configuration, the rate-limit table, the clock and the external
outcomes.  Faithful to the source order:

    limitMiddleware: if MaxBodySize >= 0 && ContentLength > MaxBodySize && ContentLength != -1
                       -> 400 "invalid request"
    ctaHandler:
      method != POST                          -> 404 "not found"
      ua == "" || isFakeUA(ua)                -> 400 "invalid request"
      !allowRate(clientIP(r))                 -> 429 "invalid request"
      decode err (and != io.EOF)              -> 400 "invalid request"
      token == ""                             -> 400 "invalid request"
      ok, err := VerifyTurnstile(...)
      if err != nil || !ok:
        warnRefuse(r, "turnstile failed: " + err.Error())
          -- err == nil here dereferences a nil error: panic
        -> 400 "invalid request"
      SendMail fails                          -> 500 "invalid request"
      success                                 -> 204
-/
def serveCTA (cfg : Config) (m : RateMap) (now : Int) (r : Request)
    (tresp : Option TResponse) (mailErr : Option String) : ServeResult :=
  if cfg.options.maxBodySize ≥ 0 ∧ r.contentLength > cfg.options.maxBodySize ∧
      r.contentLength ≠ -1 then
    ⟨.response 400 "invalid request", m, [.contentLengthCheck]⟩
  else if r.method ≠ "POST" then
    ⟨.response 404 "not found", m, [.contentLengthCheck, .methodCheck]⟩
  else if r.userAgent = "" ∨ isFakeUA cfg.options r.userAgent = true then
    ⟨.response 400 "invalid request", m,
      [.contentLengthCheck, .methodCheck, .uaCheck]⟩
  else
    match allowRate cfg.options m (clientIP r) now with
    | (false, m1) =>
      ⟨.response 429 "invalid request", m1,
        [.contentLengthCheck, .methodCheck, .uaCheck, .rateCheck]⟩
    | (true, m1) =>
      match r.decodeResult with
      | .errOther =>
        ⟨.response 400 "invalid request", m1,
          [.contentLengthCheck, .methodCheck, .uaCheck, .rateCheck,
            .decodeBody]⟩
      | .eofEmpty =>
        ⟨.response 400 "invalid request", m1,
          [.contentLengthCheck, .methodCheck, .uaCheck, .rateCheck,
            .decodeBody, .tokenCheck]⟩
      | .ok token _payload =>
        if token = "" then
          ⟨.response 400 "invalid request", m1,
            [.contentLengthCheck, .methodCheck, .uaCheck, .rateCheck,
              .decodeBody, .tokenCheck]⟩
        else
          match VerifyTurnstile cfg.cfturn token (clientIP r) tresp with
          | (_, some _) =>
            ⟨.response 400 "invalid request", m1,
              [.contentLengthCheck, .methodCheck, .uaCheck, .rateCheck,
                .decodeBody, .tokenCheck, .verifyCall]⟩
          | (false, none) =>
            ⟨.panicked, m1,
              [.contentLengthCheck, .methodCheck, .uaCheck, .rateCheck,
                .decodeBody, .tokenCheck, .verifyCall]⟩
          | (true, none) =>
            match mailErr with
            | some _ =>
              ⟨.response 500 "invalid request", m1,
                [.contentLengthCheck, .methodCheck, .uaCheck, .rateCheck,
                  .decodeBody, .tokenCheck, .verifyCall, .mailCall]⟩
            | none =>
              ⟨.response 204 "", m1,
                [.contentLengthCheck, .methodCheck, .uaCheck, .rateCheck,
                  .decodeBody, .tokenCheck, .verifyCall, .mailCall]⟩

/-- The full check order of the pipeline; every run's `steps` trace is a
prefix of this list. -/
def stepOrder : List Step :=
  [.contentLengthCheck, .methodCheck, .uaCheck, .rateCheck, .decodeBody,
    .tokenCheck, .verifyCall, .mailCall]

/-! ## Concrete fixtures used by the closed theorems -/

/-- A realistic loaded configuration: default turnstile endpoint, a
35-character secret, default body cap 4096, rate limiting and UA
filtering enabled. -/
def cfgEx : Config :=
  ⟨⟨"https://challenges.cloudflare.com/turnstile/v0/siteverify",
    "0x4AAAAAAAAAAABBBBBBBBCCCCCCCCDDDDD"⟩,
   ⟨true, 4096, true, "/-/cta"⟩⟩

/-- A configuration with rate limiting disabled. -/
def optsOff : OptionsConfig := ⟨false, 4096, true, "/-/cta"⟩

/-- The options of `cfgEx` (rate limiting enabled). -/
def optsOn : OptionsConfig := ⟨true, 4096, true, "/-/cta"⟩

/-- A POST whose declared Content-Length (99999) exceeds the 4096 cap,
with an ordinary browser User-Agent. -/
def reqOversized : Request :=
  ⟨"POST", "Mozilla/5.0 (X11; Linux x86_64)", 99999, "198.51.100.7",
    "203.0.113.9:43120", .ok "tok" []⟩

/-- A GET whose declared Content-Length (99999) exceeds the 4096 cap. -/
def reqGetOversized : Request :=
  ⟨"GET", "Mozilla/5.0", 99999, "198.51.100.7", "203.0.113.9:43120",
    .eofEmpty⟩

/-- A small GET request (declared Content-Length unknown). -/
def reqGetSmall : Request :=
  ⟨"GET", "", -1, "192.0.2.1", "203.0.113.9:43120", .errOther⟩

/-- A well-formed POST with a non-empty token. -/
def reqC2 : Request :=
  ⟨"POST", "Mozilla/5.0 (Macintosh; Intel Mac OS X)", -1, "192.0.2.55", "",
    .ok "tok-abc" []⟩

/-- A well-formed POST with a non-empty token (C6 fixture). -/
def reqC6 : Request :=
  ⟨"POST", "Mozilla/5.0 (X11; Ubuntu)", 100, "198.51.100.7", "",
    .ok "tok-c6" []⟩

/-- A POST with an empty body (decodes to `io.EOF`, hence empty
token). -/
def reqEmptyTok : Request :=
  ⟨"POST", "Mozilla/5.0 Gecko", -1, "192.0.2.7", "", .eofEmpty⟩

/-- Turnstile answering 200 with `{"success": false}` — the honest
"challenge failed" verdict. -/
def respC2 : TResponse := ⟨200, "200 OK", some "", some false⟩

/-- Turnstile answering 200 with `{"success": false}` (C6 fixture). -/
def respC6 : TResponse := ⟨200, "200 OK", some "body", some false⟩

/-- A response with a status below 200 whose body decodes to
`{"success": true}`. -/
def respLow : TResponse := ⟨99, "99 Bogus", some "ignored", some true⟩

/-- A 500 response with a readable body. -/
def resp500 : TResponse :=
  ⟨500, "500 Internal Server Error", some "oops", some true⟩

/-! ## Helper lemmas -/

/-- `marshalIndentJ` on a string value is exactly the JSON string
encoding (at any depth). -/
theorem marshalIndentJ_str (d : Nat) (s : String) :
    marshalIndentJ d (.str s) = encodeJSONString s := by
  simp [marshalIndentJ]

/-! ## C8 -/

/-- C8: with rate limiting disabled by configuration, the admission
check returns true for every identity and leaves the rate-limit table
completely unchanged. -/
theorem c8_disabled_no_bookkeeping (opts : OptionsConfig) (m : RateMap)
    (ip : String) (now : Int) (h : opts.enableRateLimiting = false) :
    allowRate opts m ip now = (true, m) := by
  simp [allowRate, h]

/-- Witness for C8 at a concrete table and identity. -/
theorem c8_witness :
    optsOff.enableRateLimiting = false ∧
    allowRate optsOff [("198.51.100.7", [3])] "192.0.2.9" 9
      = (true, [("198.51.100.7", [3])]) :=
  ⟨rfl, c8_disabled_no_bookkeeping optsOff [("198.51.100.7", [3])]
    "192.0.2.9" 9 rfl⟩

/-! ## C3 -/

/-- C3 counterexample: a POST with an ordinary browser User-Agent whose
declared Content-Length (99999) exceeds the limit (4096) is rejected by
`limitMiddleware` with the generic 400 before the User-Agent filter or
the rate-limit admission is ever evaluated: the evaluated-step trace is
just the Content-Length check, and the rate-limit table is untouched.
This contradicts the claim that the UA filter and rate-limit admission
run before the declared-Content-Length rejection. -/
theorem c3_counterexample :
    (serveCTA cfgEx [] 0 reqOversized none none).outcome
        = .response 400 "invalid request" ∧
    (serveCTA cfgEx [] 0 reqOversized none none).steps
        = [.contentLengthCheck] ∧
    Step.uaCheck ∉ (serveCTA cfgEx [] 0 reqOversized none none).steps ∧
    Step.rateCheck ∉ (serveCTA cfgEx [] 0 reqOversized none none).steps ∧
    (serveCTA cfgEx [] 0 reqOversized none none).rlimap = [] := by
  decide

/-- C3 (amended): the pipeline's checks run in the fixed order
declared-Content-Length (middleware), method, User-Agent filter,
rate-limit admission, size-capped body decode, token presence,
verification, delivery — the evaluated-step trace of every request is a
prefix of `stepOrder`, with the first failure short-circuiting.  In
particular a request with an oversized declared Content-Length is
rejected before (not after) the UA filter and rate-limit admission. -/
theorem c3_check_order (cfg : Config) (m : RateMap) (now : Int)
    (r : Request) (tresp : Option TResponse) (mailErr : Option String) :
    ∃ rest, (serveCTA cfg m now r tresp mailErr).steps ++ rest = stepOrder := by
  unfold serveCTA
  repeat' split
  all_goals exact ⟨_, rfl⟩

/-! ## C10 -/

/-- C10 counterexample: a GET with declared Content-Length 99999 is
answered 400 "invalid request" by the middleware, not 404 "not found" —
so "every request with a method other than POST gets 404 not found" is
false. -/
theorem c10_counterexample :
    reqGetOversized.method ≠ "POST" ∧
    (serveCTA cfgEx [] 0 reqGetOversized none none).outcome
        = .response 400 "invalid request" ∧
    (serveCTA cfgEx [] 0 reqGetOversized none none).outcome
        ≠ .response 404 "not found" := by
  decide

/-- C10 (amended): every request with a method other than POST whose
declared Content-Length does not trigger the middleware's body-size
rejection is answered 404 "not found", the rate-limit table is left
unchanged, and no pipeline step beyond the middleware check and the
method check is evaluated (no UA check, no rate-limit state change, no
body read, no Verifier call, no mail delivery). -/
theorem c10_non_post_404 (cfg : Config) (m : RateMap) (now : Int)
    (r : Request) (tresp : Option TResponse) (mailErr : Option String)
    (hcl : ¬(cfg.options.maxBodySize ≥ 0 ∧
        r.contentLength > cfg.options.maxBodySize ∧ r.contentLength ≠ -1))
    (hm : r.method ≠ "POST") :
    serveCTA cfg m now r tresp mailErr
      = ⟨.response 404 "not found", m, [.contentLengthCheck, .methodCheck]⟩ := by
  unfold serveCTA
  rw [if_neg hcl, if_pos hm]

/-- Witness for C10's amended theorem at a concrete GET. -/
theorem c10_witness :
    (¬(cfgEx.options.maxBodySize ≥ 0 ∧
        reqGetSmall.contentLength > cfgEx.options.maxBodySize ∧
        reqGetSmall.contentLength ≠ -1)) ∧
    reqGetSmall.method ≠ "POST" ∧
    serveCTA cfgEx [("10.0.0.1", [5])] 7 reqGetSmall none none
      = ⟨.response 404 "not found", [("10.0.0.1", [5])],
          [.contentLengthCheck, .methodCheck]⟩ :=
  ⟨by decide, by decide,
    c10_non_post_404 cfgEx [("10.0.0.1", [5])] 7 reqGetSmall none none
      (by decide) (by decide)⟩

/-! ## C2 -/

/-- C2: on the honest "challenge failed" verdict — Turnstile answers
HTTP 200 with `{"success": false}`, so `VerifyTurnstile` returns
`(false, nil)` — the handler evaluates
`warnRefuse(r, "turnstile failed: " + err.Error())` with `err == nil`
and panics (nil-pointer dereference) instead of writing the generic 400:
the claim that this case yields the generic client-error response with
no escaping panic is violated by the code. -/
theorem c2_honest_fail_panics :
    VerifyTurnstile cfgEx.cfturn "tok-abc" "192.0.2.55" (some respC2)
        = (false, none) ∧
    serveCTA cfgEx [] 5 reqC2 (some respC2) none
      = ⟨.panicked, [("192.0.2.55", [5])],
          [.contentLengthCheck, .methodCheck, .uaCheck, .rateCheck,
            .decodeBody, .tokenCheck, .verifyCall]⟩ := by
  decide

/-! ## C6 -/

/-- C6: the status map fails on the "failed token" case.  A POST that
passes every earlier check and whose token Turnstile honestly rejects
(200, `{"success": false}`) makes the handler panic (no response at
all) rather than answer 400 as the claim requires. -/
theorem c6_failed_token_panics_not_400 :
    serveCTA cfgEx [] 0 reqC6 (some respC6) none
      = ⟨.panicked, [("198.51.100.7", [0])],
          [.contentLengthCheck, .methodCheck, .uaCheck, .rateCheck,
            .decodeBody, .tokenCheck, .verifyCall]⟩ ∧
    (serveCTA cfgEx [] 0 reqC6 (some respC6) none).outcome
      ≠ .response 400 "invalid request" := by
  decide

/-! ## C4 -/

/-- C4 counterexample: a response with HTTP status 99 — outside
200–299, below 200 — together with a body that decodes to
`{"success": true}` makes `VerifyTurnstile` return `(true, nil)`: the
body IS decoded as a success result and no diagnostic error is
produced, contradicting the claim for statuses below 200 (the code only
tests `StatusCode > 299`). -/
theorem c4_counterexample :
    VerifyTurnstile cfgEx.cfturn "tok-c4" "198.51.100.20" (some respLow)
        = (true, none) ∧
    ¬((VerifyTurnstile cfgEx.cfturn "tok-c4" "198.51.100.20"
          (some respLow)).1 = false ∧
      (VerifyTurnstile cfgEx.cfturn "tok-c4" "198.51.100.20"
          (some respLow)).2 ≠ none) := by
  decide

/-- C4 (amended): for every HTTP status ABOVE 299 returned by the
verification endpoint, `VerifyTurnstile` (with secret and endpoint
configured) fails closed: it returns `success = false` together with
the non-nil status diagnostic carrying the response status text and the
captured body, and the result never consults the body's decoded
`success` field.  (Statuses at or below 299 — including any below
200 — take the decode path instead.) -/
theorem c4_non_2xx_fails_closed (cfg : CFTurnConfig) (token ip : String)
    (resp : TResponse) (hs : cfg.secret ≠ "") (he : cfg.endpoint ≠ "")
    (hst : resp.statusCode > 299) :
    VerifyTurnstile cfg token ip (some resp)
      = (false, some (.statusError resp.status resp.readBody)) := by
  have h1 : ¬(cfg.secret = "" ∨ cfg.endpoint = "") := by
    rintro (h | h)
    · exact hs h
    · exact he h
  cases hb : resp.readBody with
  | none => simp [VerifyTurnstile, h1, hst, hb]
  | some b => simp [VerifyTurnstile, h1, hst, hb]

/-- Witness for C4's amended theorem at a concrete 500 response. -/
theorem c4_witness :
    cfgEx.cfturn.secret ≠ "" ∧ cfgEx.cfturn.endpoint ≠ "" ∧
    resp500.statusCode > 299 ∧
    VerifyTurnstile cfgEx.cfturn "tok-w4" "192.0.2.33" (some resp500)
      = (false, some (.statusError "500 Internal Server Error"
          (some "oops"))) :=
  ⟨by decide, by decide, by decide,
    c4_non_2xx_fails_closed cfgEx.cfturn "tok-w4" "192.0.2.33" resp500
      (by decide) (by decide) (by decide)⟩

/-! ## C5 -/

/-- C5 counterexample: the claim's composition (strings pass to the
replacement passes unrendered) would indeed send
"visit http://evil.example/x now" to "visit  now" — but the code
renders EVERY value through `json.MarshalIndent` first, strings
included, so the code's sanitizer does not produce "visit  now" on this
input (it keeps the JSON quotes). -/
theorem c5_counterexample :
    sanitizeFieldValueSpec (.str "visit http://evil.example/x now")
        = "visit  now" ∧
    sanitizeFieldValue (.str "visit http://evil.example/x now")
        ≠ "visit  now" := by
  constructor
  · decide
  · have h : sanitizeFieldValue (.str "visit http://evil.example/x now")
        = trimSpaceStr (replaceAllCtrl (replaceAllURL (replaceAllHTML
            (encodeJSONString "visit http://evil.example/x now")))) := by
      unfold sanitizeFieldValue
      rw [marshalIndentJ_str]
    rw [h]
    decide

/-- C5 (amended): sanitization of a string field equals the
composition: render the value through `encoding/json` marshaling —
strings acquire surrounding double quotes and JSON escaping (including
`\u..`-escapes of `<`, `>`, `&` and of control bytes) — then delete
HTML-tag matches, then delete `http(s)://` URL matches, then replace
control bytes by single spaces, then trim, in exactly that order.
Consequently sanitizing "visit http://evil.example/x now" yields the
12-character string `"visit  now"` INCLUDING its two literal
double-quote characters. -/
theorem c5_sanitize_composition :
    (∀ s : String, sanitizeFieldValue (.str s)
        = trimSpaceStr (replaceAllCtrl (replaceAllURL (replaceAllHTML
            (encodeJSONString s))))) ∧
    sanitizeFieldValue (.str "visit http://evil.example/x now")
        = "\"visit  now\"" := by
  constructor
  · intro s
    unfold sanitizeFieldValue
    rw [marshalIndentJ_str]
  · have h : sanitizeFieldValue (.str "visit http://evil.example/x now")
        = trimSpaceStr (replaceAllCtrl (replaceAllURL (replaceAllHTML
            (encodeJSONString "visit http://evil.example/x now")))) := by
      unfold sanitizeFieldValue
      rw [marshalIndentJ_str]
    rw [h]
    decide

/-! ## C7 -/

/-- C7: a POST that reaches body decoding (middleware, method, UA and
rate-limit checks pass) and decodes to an empty token — either an empty
body (`io.EOF`) or JSON with an empty/missing token — is rejected with
the generic 400 client error, and the Verifier is never invoked: the
`verifyCall` step is absent from the evaluated-step trace. -/
theorem c7_empty_token_no_verifier (cfg : Config) (m : RateMap) (now : Int)
    (r : Request) (tresp : Option TResponse) (mailErr : Option String)
    (hcl : ¬(cfg.options.maxBodySize ≥ 0 ∧
        r.contentLength > cfg.options.maxBodySize ∧ r.contentLength ≠ -1))
    (hm : r.method = "POST")
    (hua1 : r.userAgent ≠ "")
    (hua2 : isFakeUA cfg.options r.userAgent = false)
    (hallow : (allowRate cfg.options m (clientIP r) now).1 = true)
    (hdec : r.decodeResult = .eofEmpty ∨
        ∃ p, r.decodeResult = .ok "" p) :
    (serveCTA cfg m now r tresp mailErr).outcome
        = .response 400 "invalid request" ∧
    Step.verifyCall ∉ (serveCTA cfg m now r tresp mailErr).steps := by
  unfold serveCTA
  rw [if_neg hcl, if_neg (by simp [hm]), if_neg (by simp [hua1, hua2])]
  rcases hAR : allowRate cfg.options m (clientIP r) now with ⟨b, m1⟩
  rw [hAR] at hallow
  simp only at hallow
  subst hallow
  rcases hdec with h | ⟨p, h⟩ <;> rw [h] <;> constructor <;> simp

/-- Witness for C7 at a concrete empty-body POST. -/
theorem c7_witness :
    (¬(cfgEx.options.maxBodySize ≥ 0 ∧
        reqEmptyTok.contentLength > cfgEx.options.maxBodySize ∧
        reqEmptyTok.contentLength ≠ -1)) ∧
    reqEmptyTok.method = "POST" ∧
    reqEmptyTok.userAgent ≠ "" ∧
    isFakeUA cfgEx.options reqEmptyTok.userAgent = false ∧
    (allowRate cfgEx.options [] (clientIP reqEmptyTok) 0).1 = true ∧
    (reqEmptyTok.decodeResult = .eofEmpty ∨
        ∃ p, reqEmptyTok.decodeResult = .ok "" p) ∧
    ((serveCTA cfgEx [] 0 reqEmptyTok none none).outcome
        = .response 400 "invalid request" ∧
      Step.verifyCall ∉ (serveCTA cfgEx [] 0 reqEmptyTok none none).steps) :=
  ⟨by decide, rfl, by decide, by decide, by decide, Or.inl rfl,
    c7_empty_token_no_verifier cfgEx [] 0 reqEmptyTok none none
      (by decide) rfl (by decide) (by decide) (by decide) (Or.inl rfl)⟩

/-! ## Rate limiter lemmas -/

/-- Updating an existing entry makes lookup return the new value. -/
theorem findEntry_setEntry_self (m : RateMap) (ip : String) (l v : List Int)
    (h : findEntry m ip = some l) :
    findEntry (setEntry m ip v) ip = some v := by
  induction m with
  | nil => simp [findEntry] at h
  | cons p rest ih =>
    obtain ⟨k, w⟩ := p
    by_cases hk : k = ip
    · subst hk
      simp [findEntry, setEntry]
    · simp only [findEntry, setEntry, hk, if_false] at h ⊢
      exact ih h

/-- Updating `ip`'s entry leaves every other key's lookup unchanged. -/
theorem findEntry_setEntry_ne (m : RateMap) (ip k : String) (v : List Int)
    (h : k ≠ ip) :
    findEntry (setEntry m ip v) k = findEntry m k := by
  induction m with
  | nil => simp [setEntry]
  | cons p rest ih =>
    obtain ⟨k', w⟩ := p
    by_cases hk : k' = ip
    · subst hk
      have : ¬(k' = k) := fun hh => h hh.symm
      simp [setEntry, findEntry, this]
    · by_cases hkk : k' = k
      · simp [setEntry, findEntry, hk, hkk, h]
      · simp [setEntry, findEntry, hk, hkk, ih]

/-- Pruning keeps everything when every timestamp is within the
window. -/
theorem filter_window_all (now : Int) (l : List Int)
    (h : ∀ x ∈ l, now - x ≤ window) :
    l.filter (fun ts => decide (now - ts ≤ window)) = l := by
  induction l with
  | nil => rfl
  | cons a t ih =>
    have ha : now - a ≤ window := h a (by simp)
    simp only [List.filter_cons, decide_eq_true_eq, ha, if_pos]
    rw [ih (fun x hx => h x (by simp [hx]))]

/-- Pruning drops everything when every timestamp is stale. -/
theorem filter_window_none (now : Int) (l : List Int)
    (h : ∀ x ∈ l, window < now - x) :
    l.filter (fun ts => decide (now - ts ≤ window)) = [] := by
  induction l with
  | nil => rfl
  | cons a t ih =>
    have ha : ¬(now - a ≤ window) := by
      have := h a (by simp)
      omega
    simp only [List.filter_cons, decide_eq_true_eq, ha, if_false]
    exact ih (fun x hx => h x (by simp [hx]))

/-- `allowRate` on an identity with no entry yet: admit and create the
singleton entry. -/
theorem allowRate_not_found (opts : OptionsConfig) (m : RateMap)
    (ip : String) (now : Int) (hen : opts.enableRateLimiting = true)
    (h : findEntry m ip = none) :
    allowRate opts m ip now = (true, (ip, [now]) :: m) := by
  simp [allowRate, hen, h]

/-- `allowRate` when the whole stored list is within the window and the
appended count stays within the limit: admit. -/
theorem allowRate_keep_admit (opts : OptionsConfig) (m : RateMap)
    (ip : String) (now : Int) (l : List Int)
    (hen : opts.enableRateLimiting = true)
    (hf : findEntry m ip = some l) (hkeep : ∀ x ∈ l, now - x ≤ window)
    (hlen : l.length + 1 ≤ limit) :
    allowRate opts m ip now = (true, setEntry m ip (l ++ [now])) := by
  have hfil := filter_window_all now l hkeep
  have hcond : ¬((l ++ [now]).length > limit) := by
    simp only [List.length_append, List.length_cons, List.length_nil]
    omega
  simp only [allowRate, hen, Bool.not_true, Bool.false_eq_true, if_false, hf,
    hfil]
  rw [if_neg hcond]

/-- `allowRate` when the whole stored list is within the window and the
appended count exceeds the limit: reject, but the appended timestamp is
kept. -/
theorem allowRate_keep_reject (opts : OptionsConfig) (m : RateMap)
    (ip : String) (now : Int) (l : List Int)
    (hen : opts.enableRateLimiting = true)
    (hf : findEntry m ip = some l) (hkeep : ∀ x ∈ l, now - x ≤ window)
    (hlen : l.length + 1 > limit) :
    allowRate opts m ip now = (false, setEntry m ip (l ++ [now])) := by
  have hfil := filter_window_all now l hkeep
  have hcond : (l ++ [now]).length > limit := by
    simp only [List.length_append, List.length_cons, List.length_nil]
    omega
  simp only [allowRate, hen, Bool.not_true, Bool.false_eq_true, if_false, hf,
    hfil]
  rw [if_pos hcond]

/-- `allowRate` when every stored timestamp is stale: all are pruned,
the call is admitted and the entry becomes the singleton `[now]`. -/
theorem allowRate_prune_all (opts : OptionsConfig) (m : RateMap)
    (ip : String) (now : Int) (l : List Int)
    (hen : opts.enableRateLimiting = true)
    (hf : findEntry m ip = some l) (hdrop : ∀ x ∈ l, window < now - x) :
    allowRate opts m ip now = (true, setEntry m ip [now]) := by
  have hfil := filter_window_none now l hdrop
  have hcond : ¬(([] ++ [now] : List Int).length > limit) := by
    simp [limit]
  simp only [allowRate, hen, Bool.not_true, Bool.false_eq_true, if_false, hf,
    hfil]
  rw [if_neg hcond]
  rfl

/-! ## C1 -/

/-- C1: with rate limiting enabled, for any identity whose stored
timestamps (if any) are all stale at the first call, six calls at
nondecreasing times within one window are admitted five times and
rejected on the sixth; a seventh call more than a window after the
sixth is admitted again.  Every call — the rejected sixth included —
appends its own timestamp: after six calls the entry is exactly the six
call times, and the late seventh call leaves exactly its own time. -/
theorem c1_sliding_window_limit (opts : OptionsConfig) (m : RateMap)
    (ip : String) (t1 t2 t3 t4 t5 t6 t7 : Int)
    (hen : opts.enableRateLimiting = true)
    (hstale : ∀ l, findEntry m ip = some l → ∀ x ∈ l, window < t1 - x)
    (h12 : t1 ≤ t2) (h23 : t2 ≤ t3) (h34 : t3 ≤ t4) (h45 : t4 ≤ t5)
    (h56 : t5 ≤ t6) (hwin : t6 - t1 ≤ window) (hafter : window < t7 - t6) :
    (allowRateCalls opts m ip [t1, t2, t3, t4, t5, t6, t7]).1
        = [true, true, true, true, true, false, true] ∧
    findEntry (allowRateCalls opts m ip [t1, t2, t3, t4, t5, t6]).2 ip
        = some [t1, t2, t3, t4, t5, t6] ∧
    findEntry (allowRateCalls opts m ip [t1, t2, t3, t4, t5, t6, t7]).2 ip
        = some [t7] := by
  obtain ⟨m1, e1, f1⟩ : ∃ m1, allowRate opts m ip t1 = (true, m1) ∧
      findEntry m1 ip = some [t1] := by
    cases h0 : findEntry m ip with
    | none =>
      exact ⟨(ip, [t1]) :: m, allowRate_not_found opts m ip t1 hen h0,
        by simp [findEntry]⟩
    | some l =>
      exact ⟨setEntry m ip [t1],
        allowRate_prune_all opts m ip t1 l hen h0 (hstale l h0),
        findEntry_setEntry_self m ip l [t1] h0⟩
  obtain ⟨m2, e2, f2⟩ : ∃ m2, allowRate opts m1 ip t2 = (true, m2) ∧
      findEntry m2 ip = some [t1, t2] := by
    refine ⟨setEntry m1 ip ([t1] ++ [t2]), ?_,
      findEntry_setEntry_self m1 ip [t1] ([t1] ++ [t2]) f1⟩
    exact allowRate_keep_admit opts m1 ip t2 [t1] hen f1
      (by intro x hx; simp at hx; omega) (by simp [limit])
  obtain ⟨m3, e3, f3⟩ : ∃ m3, allowRate opts m2 ip t3 = (true, m3) ∧
      findEntry m3 ip = some [t1, t2, t3] := by
    refine ⟨setEntry m2 ip ([t1, t2] ++ [t3]), ?_,
      findEntry_setEntry_self m2 ip [t1, t2] ([t1, t2] ++ [t3]) f2⟩
    exact allowRate_keep_admit opts m2 ip t3 [t1, t2] hen f2
      (by intro x hx; simp at hx; rcases hx with rfl | rfl <;> omega)
      (by simp [limit])
  obtain ⟨m4, e4, f4⟩ : ∃ m4, allowRate opts m3 ip t4 = (true, m4) ∧
      findEntry m4 ip = some [t1, t2, t3, t4] := by
    refine ⟨setEntry m3 ip ([t1, t2, t3] ++ [t4]), ?_,
      findEntry_setEntry_self m3 ip [t1, t2, t3] ([t1, t2, t3] ++ [t4]) f3⟩
    exact allowRate_keep_admit opts m3 ip t4 [t1, t2, t3] hen f3
      (by intro x hx; simp at hx; rcases hx with rfl | rfl | rfl <;> omega)
      (by simp [limit])
  obtain ⟨m5, e5, f5⟩ : ∃ m5, allowRate opts m4 ip t5 = (true, m5) ∧
      findEntry m5 ip = some [t1, t2, t3, t4, t5] := by
    refine ⟨setEntry m4 ip ([t1, t2, t3, t4] ++ [t5]), ?_,
      findEntry_setEntry_self m4 ip [t1, t2, t3, t4]
        ([t1, t2, t3, t4] ++ [t5]) f4⟩
    exact allowRate_keep_admit opts m4 ip t5 [t1, t2, t3, t4] hen f4
      (by intro x hx; simp at hx; rcases hx with rfl | rfl | rfl | rfl <;> omega)
      (by simp [limit])
  obtain ⟨m6, e6, f6⟩ : ∃ m6, allowRate opts m5 ip t6 = (false, m6) ∧
      findEntry m6 ip = some [t1, t2, t3, t4, t5, t6] := by
    refine ⟨setEntry m5 ip ([t1, t2, t3, t4, t5] ++ [t6]), ?_,
      findEntry_setEntry_self m5 ip [t1, t2, t3, t4, t5]
        ([t1, t2, t3, t4, t5] ++ [t6]) f5⟩
    refine allowRate_keep_reject opts m5 ip t6 [t1, t2, t3, t4, t5] hen f5
      ?_ (by simp [limit])
    intro x hx
    simp at hx
    rcases hx with rfl | rfl | rfl | rfl | rfl <;> omega
  obtain ⟨m7, e7, f7⟩ : ∃ m7, allowRate opts m6 ip t7 = (true, m7) ∧
      findEntry m7 ip = some [t7] := by
    refine ⟨setEntry m6 ip [t7], ?_,
      findEntry_setEntry_self m6 ip [t1, t2, t3, t4, t5, t6] [t7] f6⟩
    refine allowRate_prune_all opts m6 ip t7 [t1, t2, t3, t4, t5, t6] hen f6 ?_
    intro x hx
    simp at hx
    rcases hx with rfl | rfl | rfl | rfl | rfl | rfl <;> omega
  refine ⟨?_, ?_, ?_⟩
  · simp [allowRateCalls, e1, e2, e3, e4, e5, e6, e7]
  · simp [allowRateCalls, e1, e2, e3, e4, e5, e6, f6]
  · simp [allowRateCalls, e1, e2, e3, e4, e5, e6, e7, f7]

/-- Witness for C1: identity "203.0.113.7", empty table, calls at
0..5 ns and then one more than a minute later. -/
theorem c1_witness :
    optsOn.enableRateLimiting = true ∧
    ((0:Int) ≤ 1 ∧ (1:Int) ≤ 2 ∧ (2:Int) ≤ 3 ∧ (3:Int) ≤ 4 ∧
      (4:Int) ≤ 5 ∧ (5:Int) - 0 ≤ window ∧ window < 60000000006 - 5) ∧
    ((allowRateCalls optsOn [] "203.0.113.7" [0, 1, 2, 3, 4, 5, 60000000006]).1
        = [true, true, true, true, true, false, true] ∧
      findEntry (allowRateCalls optsOn [] "203.0.113.7" [0, 1, 2, 3, 4, 5]).2
          "203.0.113.7" = some [0, 1, 2, 3, 4, 5] ∧
      findEntry (allowRateCalls optsOn [] "203.0.113.7"
            [0, 1, 2, 3, 4, 5, 60000000006]).2 "203.0.113.7"
          = some [60000000006]) :=
  ⟨rfl, by decide,
    c1_sliding_window_limit optsOn [] "203.0.113.7" 0 1 2 3 4 5 60000000006
      rfl (by intro l h; simp [findEntry] at h) (by decide) (by decide)
      (by decide) (by decide) (by decide) (by decide) (by decide)⟩

/-! ## C9 -/

/-- Invariant of the rate-limiter table: every stored timestamp list is
nondecreasing and bounded above by `T`. -/
def TableInv (m : RateMap) (T : Int) : Prop :=
  ∀ k l, findEntry m k = some l →
    List.Sorted (· ≤ ·) l ∧ ∀ x ∈ l, x ≤ T

/-- The invariant is monotone in the time bound. -/
theorem tableInv_mono (m : RateMap) (T T' : Int) (h : TableInv m T)
    (hT : T ≤ T') : TableInv m T' :=
  fun k l hf => ⟨(h k l hf).1, fun x hx => le_trans ((h k l hf).2 x hx) hT⟩

/-- The second component of `allowRate` on an absent entry. -/
theorem allowRate_not_found_snd (opts : OptionsConfig) (m : RateMap)
    (ip : String) (now : Int) (hen : opts.enableRateLimiting = true)
    (h : findEntry m ip = none) :
    (allowRate opts m ip now).2 = (ip, [now]) :: m := by
  simp [allowRate, hen, h]

/-- The second component of `allowRate` on a present entry: prune then
append, whatever the admission verdict. -/
theorem allowRate_found_snd (opts : OptionsConfig) (m : RateMap)
    (ip : String) (now : Int) (t : List Int)
    (hen : opts.enableRateLimiting = true)
    (h : findEntry m ip = some t) :
    (allowRate opts m ip now).2
      = setEntry m ip
          (t.filter (fun ts => decide (now - ts ≤ window)) ++ [now]) := by
  simp only [allowRate, hen, Bool.not_true, Bool.false_eq_true, if_false, h]
  split <;> rfl

/-- One admission check at time `now ≥ T` preserves the table
invariant, with the bound advanced to `now`. -/
theorem allowRate_tableInv (opts : OptionsConfig) (m : RateMap)
    (ip : String) (now T : Int) (hen : opts.enableRateLimiting = true)
    (hInv : TableInv m T) (hT : T ≤ now) :
    TableInv (allowRate opts m ip now).2 now := by
  cases h0 : findEntry m ip with
  | none =>
    rw [allowRate_not_found_snd opts m ip now hen h0]
    intro k l hf
    by_cases hk : ip = k
    · subst hk
      simp [findEntry] at hf
      subst hf
      exact ⟨by simp, by simp⟩
    · rw [show findEntry ((ip, [now]) :: m) k = findEntry m k from by
        simp [findEntry, hk]] at hf
      exact tableInv_mono m T now hInv hT k l hf
  | some t =>
    rw [allowRate_found_snd opts m ip now t hen h0]
    intro k l hf
    by_cases hk : k = ip
    · subst hk
      rw [findEntry_setEntry_self m k t _ h0] at hf
      obtain rfl := Option.some.inj hf
      obtain ⟨hs, hb⟩ := hInv k t h0
      constructor
      · refine List.pairwise_append.mpr ⟨hs.filter _, by simp, ?_⟩
        intro x hx y hy
        simp at hy
        subst hy
        exact le_trans (hb x (List.mem_of_mem_filter hx)) hT
      · intro x hx
        rcases List.mem_append.mp hx with hx | hx
        · exact le_trans (hb x (List.mem_of_mem_filter hx)) hT
        · simp at hx
          omega
    · rw [findEntry_setEntry_ne m ip k _ hk] at hf
      exact tableInv_mono m T now hInv hT k l hf

/-- Immediately after one admission check, the checked identity's entry
exists and every stored timestamp is within the window of `now`. -/
theorem allowRate_fresh (opts : OptionsConfig) (m : RateMap) (ip : String)
    (now T : Int) (hen : opts.enableRateLimiting = true)
    (hInv : TableInv m T) (hT : T ≤ now) :
    ∃ l, findEntry (allowRate opts m ip now).2 ip = some l ∧
      ∀ x ∈ l, now - x ≤ window := by
  have hw : (0 : Int) ≤ window := by decide
  cases h0 : findEntry m ip with
  | none =>
    rw [allowRate_not_found_snd opts m ip now hen h0]
    refine ⟨[now], by simp [findEntry], ?_⟩
    intro x hx
    simp at hx
    subst hx
    omega
  | some t =>
    rw [allowRate_found_snd opts m ip now t hen h0]
    refine ⟨_, findEntry_setEntry_self m ip t _ h0, ?_⟩
    intro x hx
    rcases List.mem_append.mp hx with hx | hx
    · have h2 := (List.mem_filter.mp hx).2
      simp at h2
      omega
    · simp at hx
      subst hx
      omega

/-- After a sequence of admission checks at nondecreasing times,
starting from a table satisfying the invariant at a bound below the
first time, the identity checked last has an entry whose timestamps are
all within one window of the last check's time and nondecreasing. -/
theorem runCalls_last_fresh_sorted (opts : OptionsConfig)
    (hen : opts.enableRateLimiting = true) :
    ∀ (calls : List (String × Int)) (m : RateMap) (T : Int) (ip : String)
      (t : Int), TableInv m T →
      List.Chain (· ≤ ·) T (calls.map Prod.snd) →
      calls.getLast? = some (ip, t) →
      ∃ l, findEntry (runCalls opts m calls) ip = some l ∧
        List.Sorted (· ≤ ·) l ∧ ∀ x ∈ l, t - x ≤ window := by
  intro calls
  induction calls with
  | nil =>
    intro m T ip t _ _ hlast
    simp at hlast
  | cons c rest ih =>
    intro m T ip t hInv hchain hlast
    obtain ⟨k, s⟩ := c
    rw [List.map_cons, List.chain_cons] at hchain
    obtain ⟨hTs, hchain2⟩ := hchain
    cases rest with
    | nil =>
      simp at hlast
      obtain ⟨rfl, rfl⟩ := hlast
      simp only [runCalls]
      obtain ⟨l, hf, hfresh⟩ := allowRate_fresh opts m k s T hen hInv hTs
      exact ⟨l, hf,
        ((allowRate_tableInv opts m k s T hen hInv hTs) k l hf).1, hfresh⟩
    | cons c2 rest2 =>
      rw [List.getLast?_cons_cons] at hlast
      simp only [runCalls]
      exact ih ((allowRate opts m k s).2) s ip t
        (allowRate_tableInv opts m k s T hen hInv hTs) hchain2 hlast

/-- C9: with rate limiting enabled, after every admission check (the
last element of any nonempty call trace at nondecreasing clock
readings, starting from the empty table the process boots with) the
checked identity's stored entry exists, every timestamp in it is at
most one minute old relative to the check's time, and the entry is
nondecreasing. -/
theorem c9_entry_fresh_and_sorted (opts : OptionsConfig)
    (calls : List (String × Int)) (ip : String) (t : Int)
    (hen : opts.enableRateLimiting = true)
    (hmono : List.Chain' (· ≤ ·) (calls.map Prod.snd))
    (hlast : calls.getLast? = some (ip, t)) :
    ∃ l, findEntry (runCalls opts [] calls) ip = some l ∧
      List.Sorted (· ≤ ·) l ∧ ∀ x ∈ l, t - x ≤ window := by
  cases calls with
  | nil => simp at hlast
  | cons c rest =>
    refine runCalls_last_fresh_sorted opts hen (c :: rest) [] c.2 ip t
      ?_ ?_ hlast
    · intro k l hf
      simp [findEntry] at hf
    · rw [List.map_cons, List.chain_cons]
      refine ⟨le_refl _, ?_⟩
      rw [List.map_cons] at hmono
      exact hmono

/-- Witness for C9 on a concrete three-call trace. -/
theorem c9_witness :
    optsOn.enableRateLimiting = true ∧
    List.Chain' (· ≤ ·) (([("198.51.100.7", 3), ("203.0.113.5", 10),
        ("198.51.100.7", 12)] : List (String × Int)).map Prod.snd) ∧
    ([("198.51.100.7", 3), ("203.0.113.5", 10),
        ("198.51.100.7", (12 : Int))]).getLast? = some ("198.51.100.7", 12) ∧
    (∃ l, findEntry (runCalls optsOn []
          [("198.51.100.7", 3), ("203.0.113.5", 10), ("198.51.100.7", 12)])
          "198.51.100.7" = some l ∧
      List.Sorted (· ≤ ·) l ∧ ∀ x ∈ l, 12 - x ≤ window) :=
  ⟨rfl, by norm_num [List.chain'_cons], by decide,
    c9_entry_fresh_and_sorted optsOn
      [("198.51.100.7", 3), ("203.0.113.5", 10), ("198.51.100.7", 12)]
      "198.51.100.7" 12 rfl (by norm_num [List.chain'_cons]) (by decide)⟩
